import Mathlib

/-!
Shallow embedding of the casbin SQLAlchemy adapter
(`casbin_sqlalchemy_adapter/adapter.py`) and proofs about its
rule-storage operations.

The persisted table is modelled as a list of rows plus an auto-increment
counter.  Each `_session_scope` is a transaction: it either commits its
writes to the shared store or rolls them back and re-raises.  Crucially,
`_save_policy_line` opens its own `_session_scope`, so every call to it
is an independent transaction, even when it is invoked from inside
`save_policy`'s or `add_policies`' outer loop.  Storage exceptions are
modelled by explicit failure-injection parameters (`fail` / `failAt`);
a raised exception is an `Except.error` carrying the committed store
after all rollbacks.
-/

namespace CasbinSql

/-- A row of the `casbin_rule` table: auto-assigned integer `id`, a
`ptype` tag and six nullable string value columns `v0`..`v5`
(class `CasbinRule` in the source). -/
structure CasbinRule where
  id : Nat
  ptype : String
  v0 : Option String := none
  v1 : Option String := none
  v2 : Option String := none
  v3 : Option String := none
  v4 : Option String := none
  v5 : Option String := none
deriving DecidableEq

namespace CasbinRule

/-- The loop of `CasbinRule.__str__`: collect the value fields in order,
breaking at the first unset (`None`) field. -/
def collectFields : List (Option String) → List String
  | [] => []
  | none :: _ => []
  | some v :: rest => v :: collectFields rest

/-- The value fields of a record preceding its first unset field
(`__str__`'s `arr` without the leading ptype). -/
def strFields (r : CasbinRule) : List String :=
  collectFields [r.v0, r.v1, r.v2, r.v3, r.v4, r.v5]

/-- `CasbinRule.__str__`: the canonical line form `"ptype, v0, v1, ..."`,
stopping at the first unset field. -/
def toStr (r : CasbinRule) : String :=
  String.intercalate ", " (r.ptype :: r.strFields)

/-- Reading column `v{i}` of a row for `0 ≤ i ≤ 5`.  Indices beyond 5 do
not name a mapped column; the adapter never reads them back from a row
object, so they are unset here. -/
def getV (r : CasbinRule) : Nat → Option String
  | 0 => r.v0
  | 1 => r.v1
  | 2 => r.v2
  | 3 => r.v3
  | 4 => r.v4
  | 5 => r.v5
  | _ => none

/-- `setattr(line, "v{i}", v)` on a row object.  For `i ≥ 6` the name
`v6`, `v7`, … is not a mapped column: Python sets a plain instance
attribute without complaint, and nothing of it reaches the persisted
row, so the record is unchanged. -/
def setV (r : CasbinRule) (i : Nat) (v : Option String) : CasbinRule :=
  match i with
  | 0 => { r with v0 := v }
  | 1 => { r with v1 := v }
  | 2 => { r with v2 := v }
  | 3 => { r with v3 := v }
  | 4 => { r with v4 := v }
  | 5 => { r with v5 := v }
  | _ => r

end CasbinRule

/-- The body of `Adapter._save_policy_line` before `session.add`:
`line = self._db_class(ptype=ptype)` followed by
`for i, v in enumerate(rule): setattr(line, "v{i}", v)`.
The `id` is a placeholder; storage assigns the real one on insert. -/
def mkLine (ptype : String) (rule : List String) : CasbinRule :=
  rule.enum.foldl (fun line iv => line.setV iv.1 (some iv.2)) { id := 0, ptype := ptype }

/-- The state of the `casbin_rule` table: committed rows in insertion
order plus the next auto-increment id. -/
structure DB where
  rows : List CasbinRule
  nextId : Nat
deriving DecidableEq

/-- `session.add(line)` followed by a commit: the row is persisted with
the next auto-increment id. -/
def DB.insert (db : DB) (line : CasbinRule) : DB :=
  { rows := db.rows ++ [{ line with id := db.nextId }], nextId := db.nextId + 1 }

/-- Well-formedness the relational engine maintains for the
auto-increment key: every stored id is below the counter, and ids are
unique. -/
def DB.WF (db : DB) : Prop :=
  (∀ r ∈ db.rows, r.id < db.nextId) ∧ (db.rows.map (fun r => r.id)).Nodup

/-- `Adapter._save_policy_line(ptype, rule)`: opens its own
`_session_scope` (a fresh session), builds the line and commits it.
`fail = true` injects a storage exception inside this transaction: this
session rolls back (the insert does not persist) and the exception
propagates carrying the unchanged committed store. -/
def savePolicyLine (db : DB) (ptype : String) (rule : List String) (fail : Bool) : Except DB DB :=
  if fail then Except.error db else Except.ok (db.insert (mkLine ptype rule))

/-- A run of consecutive `_save_policy_line` calls on the (ptype, rule)
pairs `prs`, numbered from `idx`; `failAt = some k` injects a storage
exception into call number `k`.  Each call is its own transaction, so
inserts committed before a failing call stay committed. -/
def insertLoop (db : DB) (prs : List (String × List String)) (failAt : Option Nat) (idx : Nat) :
    Except DB DB :=
  match prs with
  | [] => Except.ok db
  | pr :: rest =>
    match savePolicyLine db pr.1 pr.2 (failAt == some idx) with
    | Except.error db2 => Except.error db2
    | Except.ok db2 => insertLoop db2 rest failAt (idx + 1)

/-- `Adapter.add_policy(sec, ptype, rule)`: a single `_save_policy_line`
call (`sec` is unused); failure-free execution. -/
def addPolicy (db : DB) (sec ptype : String) (rule : List String) : DB :=
  db.insert (mkLine ptype rule)

/-- `Adapter.add_policies(sec, ptype, rules)`: one `_save_policy_line`
call per rule, each call its own transaction. -/
def addPolicies (db : DB) (sec ptype : String) (rules : List (List String))
    (failAt : Option Nat) : Except DB DB :=
  insertLoop db (rules.map (fun rule => (ptype, rule))) failAt 0

/-- The part of the casbin `Model` that `save_policy` reads: the "p" and
"g" sections (`none` models `sec not in model.model.keys()`), each an
ordered association of ptype to its list of rule tuples. -/
structure Model where
  p : Option (List (String × List (List String)))
  g : Option (List (String × List (List String)))

/-- The (ptype, rule) pairs `save_policy` iterates for one section:
`for ptype, ast in model.model[sec].items(): for rule in ast.policy`. -/
def sectionRules : Option (List (String × List (List String))) → List (String × List String)
  | none => []
  | some l => (l.map (fun pa => pa.2.map (fun rule => (pa.1, rule)))).flatten

/-- All (ptype, rule) pairs `save_policy` inserts, in iteration order:
section "p" then section "g". -/
def modelRules (m : Model) : List (String × List String) :=
  sectionRules m.p ++ sectionRules m.g

/-- `Adapter.save_policy(model)`.  The outer `_session_scope` issues
`query.delete()` (uncommitted until the scope exits) and then calls
`_save_policy_line` once per model rule — but each such call opens and
commits its own session.  `failAt = some k` injects a storage exception
into insert number `k`: the prior inserts stay committed, the outer
session rolls its delete back, and the exception propagates.  On
failure-free execution the outer delete commits last, removing exactly
the rows that were present when the delete was issued, and the method
returns True. -/
def savePolicy (db : DB) (m : Model) (failAt : Option Nat) : Except DB (DB × Bool) :=
  let toDelete := db.rows.map (fun r => r.id)
  match insertLoop db (modelRules m) failAt 0 with
  | Except.error db2 => Except.error db2
  | Except.ok db2 =>
    Except.ok
      ({ rows := db2.rows.filter (fun r => !(decide (r.id ∈ toDelete))), nextId := db2.nextId },
        true)

/-- The filter both `remove_policy` and `update_policy` build:
`ptype == ptype` AND, for each position `i` of the rule,
`v{i} == rule[i]`. -/
def exactMatch (ptype : String) (rule : List String) (r : CasbinRule) : Bool :=
  r.ptype == ptype && rule.enum.all (fun iv => r.getV iv.1 == some iv.2)

/-- `Adapter.remove_policy(sec, ptype, rule)`: deletes the exactly
matching rows in one transaction; returns whether at least one row was
deleted. -/
def removePolicy (db : DB) (sec ptype : String) (rule : List String) : DB × Bool :=
  let deleted := (db.rows.filter (exactMatch ptype rule)).length
  ({ rows := db.rows.filter (fun r => !(exactMatch ptype rule r)), nextId := db.nextId },
    decide (0 < deleted))

/-- Length of the shortest rule in the list: Python `zip(*rules)` stops
there. -/
def minLen : List (List String) → Nat
  | [] => 0
  | [rule] => rule.length
  | rule :: rest => min rule.length (minLen rest)

/-- Python `zip(*rules)`: the transpose truncated at the shortest rule;
entry `i` lists each rule's `i`-th element, in rule order. -/
def pyZip (rules : List (List String)) : List (List String) :=
  (List.range (minLen rules)).map (fun i => rules.filterMap (fun rule => rule.get? i))

/-- The filter `remove_policies` builds after transposition: `ptype`
matches and, for each transposed position `i`, `v{i}` equals some rule's
`i`-th element (`or_` over the column's values). -/
def removePoliciesMatch (ptype : String) (cols : List (List String)) (r : CasbinRule) : Bool :=
  r.ptype == ptype && cols.enum.all (fun ic => ic.2.any (fun v => r.getV ic.1 == some v))

/-- `Adapter.remove_policies(sec, ptype, rules)`: returns with the table
untouched when `rules` is empty (falsy); otherwise deletes, in one
transaction, every row matched by the transposed per-position membership
filter. -/
def removePolicies (db : DB) (sec ptype : String) (rules : List (List String)) : DB :=
  if rules.isEmpty then db
  else
    { rows := db.rows.filter (fun r => !(removePoliciesMatch ptype (pyZip rules) r)),
      nextId := db.nextId }

/-- The filter `remove_filtered_policy` builds: `ptype` matches and each
non-empty `field_values[i]` pins column `v{field_index + i}`;
empty-string values add no constraint. -/
def rfpMatch (ptype : String) (fieldIndex : Nat) (fieldValues : List String) (r : CasbinRule) :
    Bool :=
  r.ptype == ptype &&
    fieldValues.enum.all (fun iv => iv.2 == "" || r.getV (fieldIndex + iv.1) == some iv.2)

/-- `Adapter.remove_filtered_policy(sec, ptype, field_index, *field_values)`:
validates `0 ≤ field_index ≤ 5` and `1 ≤ field_index + len(field_values) ≤ 6`,
returning False with storage untouched on a violation; otherwise deletes
the matching rows and returns whether at least one was deleted.
`field_index` is a Python int, hence modelled as an integer. -/
def removeFilteredPolicy (db : DB) (sec ptype : String) (fieldIndex : Int)
    (fieldValues : List String) : DB × Bool :=
  if 0 ≤ fieldIndex ∧ fieldIndex ≤ 5 then
    if 1 ≤ fieldIndex + (fieldValues.length : Int) ∧
        fieldIndex + (fieldValues.length : Int) ≤ 6 then
      let deleted := (db.rows.filter (rfpMatch ptype fieldIndex.toNat fieldValues)).length
      ({ rows := db.rows.filter (fun r => !(rfpMatch ptype fieldIndex.toNat fieldValues r)),
          nextId := db.nextId },
        decide (0 < deleted))
    else (db, false)
  else (db, false)

/-- SQLAlchemy `Query.one()`: the single result, or raise
`NoResultFound` / `MultipleResultsFound`. -/
def queryOne : List CasbinRule → Except String CasbinRule
  | [] => Except.error "NoResultFound"
  | [x] => Except.ok x
  | _ => Except.error "MultipleResultsFound"

/-- The overwrite loop of `update_policy`:
`for index in range(len(longest_rule))`, assign `v{index}` the value
`new_rule[index]` when `index < len(new_rule)`, else `None`. -/
def overwriteRule (line : CasbinRule) (newRule : List String) (longestLen : Nat) : CasbinRule :=
  (List.range longestLen).foldl
    (fun acc index =>
      if index < newRule.length then acc.setV index (newRule.get? index)
      else acc.setV index none)
    line

/-- `Adapter.update_policy(sec, ptype, old_rule, new_rule)`: locate the
unique record matching `ptype` and every position of `old_rule` with
`query.one()` — which raises on zero or several matches, rolling the
transaction back with the store unchanged — then overwrite its value
fields position by position up to the longer rule's length; the session
commits the modified row. -/
def updatePolicy (db : DB) (sec ptype : String) (oldRule newRule : List String) :
    Except (String × DB) DB :=
  let longestRule := if oldRule.length > newRule.length then oldRule else newRule
  match queryOne (db.rows.filter (exactMatch ptype oldRule)) with
  | Except.error e => Except.error (e, db)
  | Except.ok line =>
    let line2 := overwriteRule line newRule longestRule.length
    Except.ok
      { rows := db.rows.map (fun r => if r.id = line.id then line2 else r), nextId := db.nextId }

/-- `Adapter.update_policies(sec, ptype, old_rules, new_rules)`:
`update_policy` pairwise by index over `range(len(old_rules))`, each an
independent transaction; an index beyond `new_rules` raises IndexError
with the earlier updates already committed. -/
def updatePolicies (db : DB) (sec ptype : String) (oldRules newRules : List (List String)) :
    Except (String × DB) DB :=
  match oldRules, newRules with
  | [], _ => Except.ok db
  | _ :: _, [] => Except.error ("IndexError", db)
  | o :: os, n :: ns =>
    match updatePolicy db sec ptype o n with
    | Except.error e => Except.error e
    | Except.ok db2 => updatePolicies db2 sec ptype os ns

/-- The `Filter` class: seven independent sets of acceptable values, one
per column; an empty set leaves its column unconstrained. -/
structure Filter where
  ptype : List String := []
  v0 : List String := []
  v1 : List String := []
  v2 : List String := []
  v3 : List String := []
  v4 : List String := []
  v5 : List String := []

/-- One conjunct of `filter_query`: when the value set is non-empty the
column value must be IN it (an unset column is IN no set). -/
def inSet (vs : List String) (v : Option String) : Bool :=
  vs.isEmpty || vs.any (fun w => v == some w)

/-- The row predicate accumulated by `Adapter.filter_query`'s seven
conditional refinements. -/
def filterMatch (f : Filter) (r : CasbinRule) : Bool :=
  (f.ptype.isEmpty || f.ptype.any (fun w => r.ptype == w)) &&
    inSet f.v0 r.v0 && inSet f.v1 r.v1 && inSet f.v2 r.v2 &&
    inSet f.v3 r.v3 && inSet f.v4 r.v4 && inSet f.v5 r.v5

/-- Insertion into a list kept sorted by ascending id (helper giving the
semantics of `ORDER BY id`). -/
def insertById (r : CasbinRule) : List CasbinRule → List CasbinRule
  | [] => [r]
  | x :: xs => if r.id ≤ x.id then r :: x :: xs else x :: insertById r xs

/-- `order_by(CasbinRule.id)`: the rows sorted by ascending id. -/
def orderById (l : List CasbinRule) : List CasbinRule :=
  l.foldr insertById []

/-- `Adapter.filter_query(querydb, filter)`: refine the query by each
non-empty value set, then order by id ascending. -/
def filterQuery (rows : List CasbinRule) (f : Filter) : List CasbinRule :=
  orderById (rows.filter (filterMatch f))

/-- `Adapter.load_policy(model)` reads every row and feeds each row's
line form to `persist.load_policy_line`; this is the list of line
strings fed, in table order. -/
def loadPolicyLines (db : DB) : List String :=
  db.rows.map CasbinRule.toStr

/-- The rows a `load_filtered_policy(model, filter)` call reads, via
`filter_query`. -/
def loadFilteredRows (db : DB) (f : Filter) : List CasbinRule :=
  filterQuery db.rows f

/-- Adapter state: the backing table plus the `_filtered` flag. -/
structure AdapterS where
  db : DB
  filtered : Bool

/-- `Adapter.__init__(engine, db_class, filtered)`: creates the schema
when absent (a no-op on the model) and runs `self._filtered = filtered`. -/
def mkAdapter (db : DB) (filtered : Bool) : AdapterS :=
  { db := db, filtered := filtered }

/-- `Adapter.is_filtered()`. -/
def isFiltered (a : AdapterS) : Bool :=
  a.filtered

/-- `Adapter.load_filtered_policy(model, filter)`: feeds the filtered,
id-ordered rows' line forms to the model and then runs
`self._filtered = True`; the table itself is untouched. -/
def loadFilteredPolicy (a : AdapterS) (f : Filter) : AdapterS × List String :=
  ({ db := a.db, filtered := true }, (loadFilteredRows a.db f).map CasbinRule.toStr)

/-- One public adapter call with its arguments; the failure-injection
points are carried where a call spans several transactions. -/
inductive Op where
  | loadPolicyOp
  | loadFilteredPolicyOp (f : Filter)
  | savePolicyOp (m : Model) (failAt : Option Nat)
  | addPolicyOp (sec ptype : String) (rule : List String)
  | addPoliciesOp (sec ptype : String) (rules : List (List String)) (failAt : Option Nat)
  | removePolicyOp (sec ptype : String) (rule : List String)
  | removePoliciesOp (sec ptype : String) (rules : List (List String))
  | removeFilteredPolicyOp (sec ptype : String) (fieldIndex : Int) (fieldValues : List String)
  | updatePolicyOp (sec ptype : String) (oldRule newRule : List String)
  | updatePoliciesOp (sec ptype : String) (oldRules newRules : List (List String))

/-- The adapter state after one public call, whether it returned
normally or raised (either way every session was committed or rolled
back before control left the adapter).  Only `load_filtered_policy`
assigns `_filtered`. -/
def applyOp (a : AdapterS) : Op → AdapterS
  | Op.loadPolicyOp => a
  | Op.loadFilteredPolicyOp f => (loadFilteredPolicy a f).1
  | Op.savePolicyOp m failAt =>
    match savePolicy a.db m failAt with
    | Except.ok (db2, _) => { db := db2, filtered := a.filtered }
    | Except.error db2 => { db := db2, filtered := a.filtered }
  | Op.addPolicyOp sec ptype rule =>
    { db := addPolicy a.db sec ptype rule, filtered := a.filtered }
  | Op.addPoliciesOp sec ptype rules failAt =>
    match addPolicies a.db sec ptype rules failAt with
    | Except.ok db2 => { db := db2, filtered := a.filtered }
    | Except.error db2 => { db := db2, filtered := a.filtered }
  | Op.removePolicyOp sec ptype rule =>
    { db := (removePolicy a.db sec ptype rule).1, filtered := a.filtered }
  | Op.removePoliciesOp sec ptype rules =>
    { db := removePolicies a.db sec ptype rules, filtered := a.filtered }
  | Op.removeFilteredPolicyOp sec ptype fieldIndex fieldValues =>
    { db := (removeFilteredPolicy a.db sec ptype fieldIndex fieldValues).1,
      filtered := a.filtered }
  | Op.updatePolicyOp sec ptype oldRule newRule =>
    match updatePolicy a.db sec ptype oldRule newRule with
    | Except.ok db2 => { db := db2, filtered := a.filtered }
    | Except.error e => { db := e.2, filtered := a.filtered }
  | Op.updatePoliciesOp sec ptype oldRules newRules =>
    match updatePolicies a.db sec ptype oldRules newRules with
    | Except.ok db2 => { db := db2, filtered := a.filtered }
    | Except.error e => { db := e.2, filtered := a.filtered }

/-- The committed store after a failure-free run of
`_save_policy_line` on each rule in order (all under one ptype). -/
def insertAll (db : DB) (ptype : String) (rules : List (List String)) : DB :=
  rules.foldl (fun d rule => d.insert (mkLine ptype rule)) db

/-- The committed store after a failure-free run of
`_save_policy_line` on each (ptype, rule) pair in order. -/
def insertAllP (db : DB) (prs : List (String × List String)) : DB :=
  prs.foldl (fun d pr => d.insert (mkLine pr.1 pr.2)) db

/-- The records `save_policy`'s insert phase creates for the model rules
`prs`, their ids counting up from `startId`. -/
def freshRows (startId : Nat) : List (String × List String) → List CasbinRule
  | [] => []
  | pr :: rest => { mkLine pr.1 pr.2 with id := startId } :: freshRows (startId + 1) rest

/-- Reading a record back as a (ptype, rule) pair through its canonical
fields. -/
def recTuple (r : CasbinRule) : String × List String :=
  (r.ptype, r.strFields)

/-! ### Record-level lemmas -/

theorem setV_ptype (r : CasbinRule) (i : Nat) (v : Option String) :
    (r.setV i v).ptype = r.ptype := by
  rcases i with _ | _ | _ | _ | _ | _ | i <;> rfl

theorem setV_ge6 (r : CasbinRule) (i : Nat) (v : Option String) (h : 6 ≤ i) :
    r.setV i v = r := by
  rcases i with _ | _ | _ | _ | _ | _ | i
  · omega
  · omega
  · omega
  · omega
  · omega
  · omega
  · rfl

theorem getV_ge6 (r : CasbinRule) (i : Nat) (h : 6 ≤ i) : r.getV i = none := by
  rcases i with _ | _ | _ | _ | _ | _ | i
  · omega
  · omega
  · omega
  · omega
  · omega
  · omega
  · rfl

theorem getV_setV (r : CasbinRule) (i j : Nat) (v : Option String) :
    (r.setV j v).getV i = if i = j ∧ j < 6 then v else r.getV i := by
  rcases Nat.lt_or_ge j 6 with hj | hj
  · rcases Nat.lt_or_ge i 6 with hi | hi
    · interval_cases i <;> interval_cases j <;> simp [CasbinRule.setV, CasbinRule.getV]
    · rw [getV_ge6 _ _ hi, if_neg (by omega), getV_ge6 _ _ hi]
  · rw [setV_ge6 _ _ _ hj, if_neg (by omega)]

theorem strFields_setId (r : CasbinRule) (n : Nat) :
    ({ r with id := n } : CasbinRule).strFields = r.strFields := rfl

theorem strFields_mkLine (ptype : String) (rule : List String) (h : rule.length ≤ 6) :
    (mkLine ptype rule).strFields = rule := by
  rcases rule with _ | ⟨a, _ | ⟨b, _ | ⟨c, _ | ⟨d, _ | ⟨e, _ | ⟨f, _ | ⟨g, rest⟩⟩⟩⟩⟩⟩⟩
  · rfl
  · rfl
  · rfl
  · rfl
  · rfl
  · rfl
  · rfl
  · simp only [List.length_cons] at h
    omega

theorem mkLine_ptype (ptype : String) (rule : List String) : (mkLine ptype rule).ptype = ptype := by
  have key : ∀ (l : List (Nat × String)) (line : CasbinRule),
      (l.foldl (fun r iv => r.setV iv.1 (some iv.2)) line).ptype = line.ptype := by
    intro l
    induction l with
    | nil => intro line; rfl
    | cons iv rest ih =>
      intro line
      simpa [List.foldl_cons] using (ih (line.setV iv.1 (some iv.2))).trans (setV_ptype _ _ _)
  exact key _ _

theorem toStr_mkLine (ptype : String) (rule : List String) (h : rule.length ≤ 6) :
    (mkLine ptype rule).toStr = String.intercalate ", " (ptype :: rule) := by
  rw [CasbinRule.toStr, mkLine_ptype, strFields_mkLine ptype rule h]

/-! ### Transaction-loop lemmas -/

theorem insertAll_eq_insertAllP (db : DB) (ptype : String) (rules : List (List String)) :
    insertAll db ptype rules = insertAllP db (rules.map (fun rule => (ptype, rule))) := by
  induction rules generalizing db with
  | nil => rfl
  | cons rule rest ih =>
    simp only [insertAll, insertAllP, List.map_cons, List.foldl_cons] at ih ⊢
    exact ih _

theorem insertLoop_none (prs : List (String × List String)) :
    ∀ (db : DB) (idx : Nat), insertLoop db prs none idx = Except.ok (insertAllP db prs) := by
  induction prs with
  | nil => intro db idx; rfl
  | cons pr rest ih =>
    intro db idx
    simp only [insertLoop, savePolicyLine,
      show ((none : Option Nat) == some idx) = false from rfl, Bool.false_eq_true,
      if_false]
    exact ih (db.insert (mkLine pr.1 pr.2)) (idx + 1)

theorem insertLoop_fail (prs : List (String × List String)) :
    ∀ (db : DB) (idx k : Nat), k < prs.length →
      insertLoop db prs (some (idx + k)) idx = Except.error (insertAllP db (prs.take k)) := by
  induction prs with
  | nil =>
    intro db idx k hk
    simp at hk
  | cons pr rest ih =>
    intro db idx k hk
    cases k with
    | zero =>
      simp only [Nat.add_zero, insertLoop, savePolicyLine, beq_self_eq_true, if_true]
      rfl
    | succ k =>
      have hne : ((some (idx + (k + 1)) : Option Nat) == some idx) = false := by
        simp only [beq_eq_false_iff_ne, ne_eq, Option.some.injEq]
        omega
      simp only [insertLoop, savePolicyLine, hne, Bool.false_eq_true, if_false]
      have harg : idx + (k + 1) = (idx + 1) + k := by omega
      rw [harg, ih (db.insert (mkLine pr.1 pr.2)) (idx + 1) k
        (by simp only [List.length_cons] at hk; omega)]
      rfl

theorem insertAllP_eq (prs : List (String × List String)) :
    ∀ db : DB, insertAllP db prs =
      { rows := db.rows ++ freshRows db.nextId prs, nextId := db.nextId + prs.length } := by
  induction prs with
  | nil => intro db; simp [insertAllP, freshRows]
  | cons pr rest ih =>
    intro db
    simp only [insertAllP, List.foldl_cons] at ih ⊢
    rw [ih (db.insert (mkLine pr.1 pr.2))]
    simp only [DB.insert, freshRows, List.length_cons, DB.mk.injEq]
    constructor
    · simp [List.append_assoc]
    · omega

theorem freshRows_le_id (prs : List (String × List String)) :
    ∀ (s : Nat) (r : CasbinRule), r ∈ freshRows s prs → s ≤ r.id := by
  induction prs with
  | nil => intro s r hr; simp [freshRows] at hr
  | cons pr rest ih =>
    intro s r hr
    simp only [freshRows, List.mem_cons] at hr
    rcases hr with rfl | hr
    · exact Nat.le_refl s
    · exact Nat.le_of_succ_le (ih (s + 1) r hr)

theorem freshRows_map_recTuple (prs : List (String × List String)) :
    ∀ s : Nat, (∀ pr ∈ prs, pr.2.length ≤ 6) → (freshRows s prs).map recTuple = prs := by
  induction prs with
  | nil => intro s _; rfl
  | cons pr rest ih =>
    obtain ⟨ptype, rule⟩ := pr
    intro s h
    have hr : rule.length ≤ 6 := h (ptype, rule) (List.mem_cons_self _ _)
    have hrec : recTuple { mkLine ptype rule with id := s } = (ptype, rule) := by
      have hx : recTuple { mkLine ptype rule with id := s } =
          ((mkLine ptype rule).ptype, (mkLine ptype rule).strFields) := rfl
      rw [hx, mkLine_ptype, strFields_mkLine ptype rule hr]
    simp only [freshRows, List.map_cons, hrec]
    rw [ih (s + 1) (fun q hq => h q (List.mem_cons_of_mem _ hq))]

theorem savePolicy_none (db : DB) (m : Model) (hWF : db.WF) :
    savePolicy db m none =
      Except.ok
        ({ rows := freshRows db.nextId (modelRules m),
            nextId := db.nextId + (modelRules m).length }, true) := by
  rw [savePolicy]
  simp only [insertLoop_none, insertAllP_eq]
  have h1 : (db.rows.filter
      (fun r => !(decide (r.id ∈ db.rows.map (fun x => x.id))))) = [] := by
    rw [List.filter_eq_nil_iff]
    intro r hr
    have hmem : r.id ∈ db.rows.map (fun x => x.id) := List.mem_map.mpr ⟨r, hr, rfl⟩
    simp [hmem]
  have h2 : ((freshRows db.nextId (modelRules m)).filter
      (fun r => !(decide (r.id ∈ db.rows.map (fun x => x.id))))) =
      freshRows db.nextId (modelRules m) := by
    rw [List.filter_eq_self]
    intro r hr
    have hge := freshRows_le_id (modelRules m) db.nextId r hr
    simp only [Bool.not_eq_eq_eq_not, Bool.not_true, decide_eq_false_iff_not, List.mem_map]
    rintro ⟨x, hx, hxe⟩
    have := hWF.1 x hx
    omega
  simp only [List.filter_append, h1, h2, List.nil_append]

/-! ### Arity-overflow lemmas -/

theorem foldl_setV_enumFrom (l : List String) :
    ∀ (n : Nat) (line : CasbinRule), 6 ≤ n →
      (List.enumFrom n l).foldl (fun r iv => r.setV iv.1 (some iv.2)) line = line := by
  induction l with
  | nil => intro n line _; rfl
  | cons a rest ih =>
    intro n line h
    rw [List.enumFrom_cons, List.foldl_cons, setV_ge6 line n _ h]
    exact ih (n + 1) line (by omega)

theorem mkLine_take6 (ptype : String) (rule : List String) :
    mkLine ptype rule = mkLine ptype (rule.take 6) := by
  rcases rule with _ | ⟨a, _ | ⟨b, _ | ⟨c, _ | ⟨d, _ | ⟨e, _ | ⟨f, rest⟩⟩⟩⟩⟩⟩
  · rfl
  · rfl
  · rfl
  · rfl
  · rfl
  · rfl
  · simp only [mkLine, List.take_succ_cons, List.take_zero, List.enum, List.enumFrom_cons,
      List.foldl_cons, List.foldl_nil]
    exact foldl_setV_enumFrom rest 6 _ (by omega)

/-! ### Update-path lemmas -/

theorem overwriteRule_getV (newRule : List String) (L : Nat) :
    ∀ (line : CasbinRule) (i : Nat),
      (overwriteRule line newRule L).getV i =
        if i < L ∧ i < 6 then (if i < newRule.length then newRule.get? i else none)
        else line.getV i := by
  induction L with
  | zero =>
    intro line i
    rw [overwriteRule]
    simp
  | succ L ih =>
    intro line i
    have hstep : overwriteRule line newRule (L + 1) =
        (if L < newRule.length then (overwriteRule line newRule L).setV L (newRule.get? L)
         else (overwriteRule line newRule L).setV L none) := by
      simp only [overwriteRule, List.range_succ, List.foldl_append, List.foldl_cons,
        List.foldl_nil]
    rw [hstep]
    rcases Nat.lt_or_ge i 6 with h6 | h6
    · by_cases hL : L < newRule.length
      · rw [if_pos hL, getV_setV, ih line i]
        rcases Nat.lt_trichotomy i L with hiL | rfl | hiL
        · rw [if_neg (by omega : ¬(i = L ∧ L < 6)), if_pos ⟨hiL, h6⟩,
            if_pos (⟨by omega, h6⟩ : i < L + 1 ∧ i < 6)]
        · rw [if_pos (⟨rfl, by omega⟩ : i = i ∧ i < 6),
            if_pos (⟨by omega, h6⟩ : i < i + 1 ∧ i < 6), if_pos hL]
        · rw [if_neg (by omega : ¬(i = L ∧ L < 6)), if_neg (by omega : ¬(i < L ∧ i < 6)),
            if_neg (by omega : ¬(i < L + 1 ∧ i < 6))]
      · rw [if_neg hL, getV_setV, ih line i]
        rcases Nat.lt_trichotomy i L with hiL | rfl | hiL
        · rw [if_neg (by omega : ¬(i = L ∧ L < 6)), if_pos ⟨hiL, h6⟩,
            if_pos (⟨by omega, h6⟩ : i < L + 1 ∧ i < 6)]
        · rw [if_pos (⟨rfl, by omega⟩ : i = i ∧ i < 6),
            if_pos (⟨by omega, h6⟩ : i < i + 1 ∧ i < 6), if_neg hL]
        · rw [if_neg (by omega : ¬(i = L ∧ L < 6)), if_neg (by omega : ¬(i < L ∧ i < 6)),
            if_neg (by omega : ¬(i < L + 1 ∧ i < 6))]
    · rw [if_neg (by omega : ¬(i < L + 1 ∧ i < 6))]
      have h1 : ((if L < newRule.length then
          (overwriteRule line newRule L).setV L (newRule.get? L)
          else (overwriteRule line newRule L).setV L none)).getV i = none :=
        getV_ge6 _ i h6
      rw [h1, getV_ge6 line i h6]

theorem overwriteRule_ptype (line : CasbinRule) (newRule : List String) (L : Nat) :
    (overwriteRule line newRule L).ptype = line.ptype := by
  have key : ∀ (l : List Nat) (r : CasbinRule),
      (l.foldl
        (fun acc index =>
          if index < newRule.length then acc.setV index (newRule.get? index)
          else acc.setV index none) r).ptype = r.ptype := by
    intro l
    induction l with
    | nil => intro r; rfl
    | cons j rest ih =>
      intro r
      rw [List.foldl_cons, ih]
      split <;> exact setV_ptype _ _ _
  exact key _ _

theorem queryOne_error_of_ne_one (l : List CasbinRule) (h : l.length ≠ 1) :
    ∃ e, queryOne l = Except.error e := by
  rcases l with _ | ⟨x, _ | ⟨y, rest⟩⟩
  · exact ⟨"NoResultFound", rfl⟩
  · simp at h
  · exact ⟨"MultipleResultsFound", rfl⟩

/-! ### Ordering lemmas -/

theorem insertById_perm (r : CasbinRule) (l : List CasbinRule) :
    (insertById r l).Perm (r :: l) := by
  induction l with
  | nil => exact List.Perm.refl _
  | cons x xs ih =>
    rw [insertById]
    split
    · exact List.Perm.refl _
    · exact (ih.cons x).trans (List.Perm.swap r x xs)

theorem orderById_perm (l : List CasbinRule) : (orderById l).Perm l := by
  induction l with
  | nil => exact List.Perm.refl _
  | cons x xs ih =>
    rw [orderById, List.foldr_cons]
    exact (insertById_perm x _).trans (ih.cons x)

theorem insertById_pairwise (r : CasbinRule) (l : List CasbinRule)
    (h : l.Pairwise (fun a b => a.id ≤ b.id)) :
    (insertById r l).Pairwise (fun a b => a.id ≤ b.id) := by
  induction l with
  | nil => simp [insertById]
  | cons x xs ih =>
    rw [insertById]
    rw [List.pairwise_cons] at h
    split
    · rename_i hle
      rw [List.pairwise_cons]
      refine ⟨?_, List.pairwise_cons.mpr h⟩
      intro y hy
      rcases List.mem_cons.mp hy with rfl | hy
      · exact hle
      · exact Nat.le_trans hle (h.1 y hy)
    · rename_i hgt
      rw [List.pairwise_cons]
      refine ⟨?_, ih h.2⟩
      intro y hy
      rcases List.mem_cons.mp ((insertById_perm r xs).mem_iff.mp hy) with rfl | hy2
      · omega
      · exact h.1 y hy2

theorem orderById_pairwise (l : List CasbinRule) :
    (orderById l).Pairwise (fun a b => a.id ≤ b.id) := by
  induction l with
  | nil => simp [orderById]
  | cons x xs ih =>
    rw [orderById, List.foldr_cons]
    exact insertById_pairwise x _ ih

/-! ### Filter and predicate characterizations -/

theorem filterMatch_empty (f : Filter) (r : CasbinRule)
    (hf : f.ptype = [] ∧ f.v0 = [] ∧ f.v1 = [] ∧ f.v2 = [] ∧ f.v3 = [] ∧ f.v4 = [] ∧
      f.v5 = []) :
    filterMatch f r = true := by
  obtain ⟨hp, h0, h1, h2, h3, h4, h5⟩ := hf
  simp [filterMatch, inSet, hp, h0, h1, h2, h3, h4, h5]

theorem enum_all_iff {α : Type} (l : List α) (p : Nat × α → Bool) :
    l.enum.all p = true ↔ ∀ (i : Nat) (x : α), l[i]? = some x → p (i, x) = true := by
  rw [List.all_eq_true]
  constructor
  · intro h i x hx
    exact h (i, x) (List.mk_mem_enum_iff_getElem?.mpr hx)
  · intro h ix hix
    obtain ⟨i, x⟩ := ix
    exact h i x (List.mk_mem_enum_iff_getElem?.mp hix)

theorem minLen_eq (rules : List (List String)) (L : Nat) (hne : rules ≠ [])
    (hlen : ∀ q ∈ rules, q.length = L) : minLen rules = L := by
  induction rules with
  | nil => exact absurd rfl hne
  | cons q rest ih =>
    rcases rest with _ | ⟨q2, rest2⟩
    · exact hlen q (List.mem_cons_self _ _)
    · have h1 : q.length = L := hlen q (List.mem_cons_self _ _)
      have h2 : minLen (q2 :: rest2) = L :=
        ih (List.cons_ne_nil _ _) (fun p hp => hlen p (List.mem_cons_of_mem _ hp))
      rw [minLen, h1, h2, Nat.min_self]
      simp

theorem removePoliciesMatch_iff (ptype : String) (rules : List (List String)) (L : Nat)
    (r : CasbinRule) (hne : rules ≠ []) (hlen : ∀ q ∈ rules, q.length = L) :
    removePoliciesMatch ptype (pyZip rules) r = true ↔
      (r.ptype = ptype ∧
        ∀ i < L, ∃ q ∈ rules, ∃ v, q[i]? = some v ∧ r.getV i = some v) := by
  have hmin : minLen rules = L := minLen_eq rules L hne hlen
  rw [removePoliciesMatch, Bool.and_eq_true, beq_iff_eq]
  refine and_congr Iff.rfl ?_
  rw [enum_all_iff]
  constructor
  · intro h i hi
    have hgot : (pyZip rules)[i]? = some (rules.filterMap (fun q => q.get? i)) := by
      rw [pyZip, hmin, List.getElem?_map, List.getElem?_range hi]
      rfl
    have hp := h i _ hgot
    rw [List.any_eq_true] at hp
    obtain ⟨v, hv, hvv⟩ := hp
    rw [List.mem_filterMap] at hv
    obtain ⟨q, hq, hqv⟩ := hv
    exact ⟨q, hq, v, by rw [← List.get?_eq_getElem?]; exact hqv, by rwa [beq_iff_eq] at hvv⟩
  · intro h i x hx
    have hiL : i < L := by
      by_contra hc
      rw [pyZip, hmin, List.getElem?_map] at hx
      rw [List.getElem?_eq_none (by simpa using Nat.le_of_not_lt hc)] at hx
      simp at hx
    have hxe : x = rules.filterMap (fun q => q.get? i) := by
      rw [pyZip, hmin, List.getElem?_map, List.getElem?_range hiL] at hx
      simpa using hx.symm
    obtain ⟨q, hq, v, hqv, hrv⟩ := h i hiL
    subst hxe
    rw [List.any_eq_true]
    refine ⟨v, List.mem_filterMap.mpr ⟨q, hq, ?_⟩, by rw [beq_iff_eq]; exact hrv⟩
    rw [List.get?_eq_getElem?]
    exact hqv

theorem rfpMatch_iff (ptype : String) (fi : Nat) (fvs : List String) (r : CasbinRule) :
    rfpMatch ptype fi fvs r = true ↔
      (r.ptype = ptype ∧ ∀ iv ∈ fvs.enum, iv.2 ≠ "" → r.getV (fi + iv.1) = some iv.2) := by
  rw [rfpMatch, Bool.and_eq_true, beq_iff_eq, List.all_eq_true]
  refine and_congr Iff.rfl ?_
  constructor
  · intro h iv hiv hne
    have hb := h iv hiv
    rw [Bool.or_eq_true] at hb
    rcases hb with h1 | h2
    · exact absurd (by rwa [beq_iff_eq] at h1) hne
    · rwa [beq_iff_eq] at h2
  · intro h iv hiv
    rw [Bool.or_eq_true]
    by_cases he : iv.2 = ""
    · exact Or.inl (by rw [beq_iff_eq]; exact he)
    · exact Or.inr (by rw [beq_iff_eq]; exact h iv hiv he)

theorem toStr_setId (r : CasbinRule) (n : Nat) :
    ({ r with id := n } : CasbinRule).toStr = r.toStr := rfl

/-! ## Claims -/

/-- C1 (counterexample): `add_policies` is not one transaction.  A
storage exception injected into the second insert of a two-rule batch
leaves the first rule persisted — the store reaching the caller with the
exception is not in its prior (empty) state. -/
theorem claim_C1_counterexample :
    addPolicies { rows := [], nextId := 1 } "s" "p" [["a"], ["b"]] (some 1) =
      Except.error { rows := [{ id := 1, ptype := "p", v0 := some "a" }], nextId := 2 } ∧
    ({ id := 1, ptype := "p", v0 := some "a" } : CasbinRule) ∈
      ({ rows := [{ id := 1, ptype := "p", v0 := some "a" }], nextId := 2 } : DB).rows :=
  ⟨rfl, List.mem_singleton.mpr rfl⟩

/-- C1 (amended): `add_policies(sec, ptype, rules)` inserts each rule in
its own transaction (one `_save_policy_line` session per rule), not all
in a single transaction: a failure-free run commits every rule, and a
storage exception during insert number `k` leaves exactly the first `k`
rules of the batch committed when the exception reaches the caller. -/
theorem claim_C1 (db : DB) (sec ptype : String) (rules : List (List String)) (k : Nat)
    (hk : k < rules.length) :
    addPolicies db sec ptype rules none = Except.ok (insertAll db ptype rules) ∧
    addPolicies db sec ptype rules (some k) =
      Except.error (insertAll db ptype (rules.take k)) := by
  constructor
  · rw [addPolicies, insertLoop_none, insertAll_eq_insertAllP]
  · rw [addPolicies, insertAll_eq_insertAllP]
    have hfail := insertLoop_fail (rules.map (fun rule => (ptype, rule))) db 0 k
      (by simpa using hk)
    rw [Nat.zero_add] at hfail
    rw [hfail, List.map_take]

/-- C1 witness: the amended statement at a concrete batch. -/
theorem claim_C1_witness :
    addPolicies { rows := [], nextId := 1 } "s" "p" [["a"], ["b"]] none =
      Except.ok (insertAll { rows := [], nextId := 1 } "p" [["a"], ["b"]]) ∧
    addPolicies { rows := [], nextId := 1 } "s" "p" [["a"], ["b"]] (some 0) =
      Except.error (insertAll { rows := [], nextId := 1 } "p" ([["a"], ["b"]].take 0)) :=
  claim_C1 { rows := [], nextId := 1 } "s" "p" [["a"], ["b"]] 0 (by decide)

/-- C2 (counterexample): the insert path accepts a 7-element rule with no
error and stores exactly what its 6-element truncation would store —
`setattr` on the unmapped attribute name `v6` silently drops the seventh
value instead of rejecting the rule. -/
theorem claim_C2_counterexample :
    addPolicy { rows := [], nextId := 0 } "s" "p" ["a", "b", "c", "d", "e", "f", "g"] =
      addPolicy { rows := [], nextId := 0 } "s" "p" ["a", "b", "c", "d", "e", "f"] := by
  decide

/-- C2 (amended): inserting any rule is identical to inserting its first
six values: values at positions ≥ 6 are silently dropped from the
persisted record (they land on an unmapped attribute); no error is
raised and nothing overflows into adjacent fields. -/
theorem claim_C2 (db : DB) (sec ptype : String) (rule : List String) :
    addPolicy db sec ptype rule = addPolicy db sec ptype (rule.take 6) := by
  rw [addPolicy, addPolicy, mkLine_take6]

/-- C3 (counterexample): `save_policy` is not one transaction.  With a
storage exception injected into its second insert, the table ends up
holding the pre-existing row together with one (but not both) of the
model's rules: the outer delete was rolled back while the first insert,
committed by its own session, persisted.  The final table is neither the
prior contents nor exactly the model's rules. -/
theorem claim_C3_counterexample :
    savePolicy { rows := [{ id := 0, ptype := "p", v0 := some "x" }], nextId := 1 }
        { p := some [("p", [["a"], ["b"]])], g := none } (some 1) =
      Except.error { rows := [{ id := 0, ptype := "p", v0 := some "x" },
                              { id := 1, ptype := "p", v0 := some "a" }], nextId := 2 } ∧
    ({ rows := [{ id := 0, ptype := "p", v0 := some "x" },
                { id := 1, ptype := "p", v0 := some "a" }], nextId := 2 } : DB).rows ≠
      ({ rows := [{ id := 0, ptype := "p", v0 := some "x" }], nextId := 1 } : DB).rows ∧
    ({ rows := [{ id := 0, ptype := "p", v0 := some "x" },
                { id := 1, ptype := "p", v0 := some "a" }], nextId := 2 } : DB).rows.map
        recTuple ≠
      modelRules { p := some [("p", [["a"], ["b"]])], g := none } :=
  ⟨rfl, by decide, by decide⟩

/-- C3 (amended): `save_policy` issues its delete inside the outer
session but performs every insert through `_save_policy_line`, which
commits in a session of its own — it is not a single transaction.  On a
failure-free run the outcome still matches the claim: afterwards the
table holds exactly one record per rule of the model's "p" and "g"
sections (reading back, in model order, as exactly those rules), every
pre-existing row is gone, and True is returned. -/
theorem claim_C3 (db : DB) (m : Model) (hWF : db.WF)
    (hlen : ∀ pr ∈ modelRules m, pr.2.length ≤ 6) :
    ∃ db2, savePolicy db m none = Except.ok (db2, true) ∧
      db2.rows.map recTuple = modelRules m ∧
      ∀ r ∈ db2.rows, r.id ∉ db.rows.map (fun x => x.id) := by
  refine ⟨_, savePolicy_none db m hWF, ?_, ?_⟩
  · exact freshRows_map_recTuple (modelRules m) db.nextId hlen
  · intro r hr
    have hge := freshRows_le_id (modelRules m) db.nextId r hr
    rw [List.mem_map]
    rintro ⟨x, hx, hxe⟩
    have := hWF.1 x hx
    omega

/-- C3 witness: the amended statement at a concrete table and model. -/
theorem claim_C3_witness :
    ∃ db2,
      savePolicy { rows := [{ id := 0, ptype := "p", v0 := some "x" }], nextId := 1 }
          { p := some [("p", [["a"], ["b"]])], g := none } none = Except.ok (db2, true) ∧
      db2.rows.map recTuple =
        modelRules { p := some [("p", [["a"], ["b"]])], g := none } ∧
      ∀ r ∈ db2.rows, r.id ∉
        ({ rows := [{ id := 0, ptype := "p", v0 := some "x" }], nextId := 1 } : DB).rows.map
          (fun x => x.id) :=
  claim_C3 { rows := [{ id := 0, ptype := "p", v0 := some "x" }], nextId := 1 }
    { p := some [("p", [["a"], ["b"]])], g := none }
    (by refine ⟨?_, ?_⟩ <;> decide) (by decide)

/-- C4: when the number of stored records matching `ptype` and every
position of `old_rule` exactly is zero or more than one, `update_policy`
fails loudly — `query.one()` raises NoResultFound or
MultipleResultsFound — and the store reaching the caller with the
exception is the unchanged one: no match is picked and nothing is
modified. -/
theorem claim_C4 (db : DB) (sec ptype : String) (oldRule newRule : List String)
    (h : (db.rows.filter (exactMatch ptype oldRule)).length ≠ 1) :
    ∃ e, updatePolicy db sec ptype oldRule newRule = Except.error (e, db) := by
  obtain ⟨e, he⟩ := queryOne_error_of_ne_one _ h
  exact ⟨e, by simp only [updatePolicy, he]⟩

/-- C4 witness: zero matches on an empty table. -/
theorem claim_C4_witness :
    ((({ rows := [], nextId := 0 } : DB).rows.filter (exactMatch "p" ["a"])).length ≠ 1) ∧
    ∃ e, updatePolicy { rows := [], nextId := 0 } "s" "p" ["a"] ["b"] =
      Except.error (e, { rows := [], nextId := 0 }) :=
  ⟨by decide, claim_C4 { rows := [], nextId := 0 } "s" "p" ["a"] ["b"] (by decide)⟩

/-- C5: with a unique stored match for (ptype, old_rule), `update_policy`
succeeds and rewrites exactly that record, position by position up to
`max(len(old_rule), len(new_rule))`: every value position
`i < len(new_rule)` becomes `new_rule[i]`, every position from
`len(new_rule)` up to the longer length is cleared to unset (so a
shorter `new_rule` unsets the trailing fields), positions beyond the
longer length keep their value, the ptype is untouched, and all other
rows are left as they were. -/
theorem claim_C5 (db : DB) (sec ptype : String) (oldRule newRule : List String)
    (line : CasbinRule)
    (hm : db.rows.filter (exactMatch ptype oldRule) = [line])
    (hnew : newRule.length ≤ 6) :
    ∃ line2,
      updatePolicy db sec ptype oldRule newRule =
        Except.ok { rows := db.rows.map (fun r => if r.id = line.id then line2 else r),
                    nextId := db.nextId } ∧
      line2.ptype = line.ptype ∧
      (∀ i, i < newRule.length → line2.getV i = newRule.get? i) ∧
      (∀ i, newRule.length ≤ i → i < max oldRule.length newRule.length →
        line2.getV i = none) ∧
      (∀ i, max oldRule.length newRule.length ≤ i → line2.getV i = line.getV i) := by
  have hlongest : (if oldRule.length > newRule.length then oldRule else newRule).length =
      max oldRule.length newRule.length := by
    split <;> omega
  refine ⟨overwriteRule line newRule (max oldRule.length newRule.length), ?_, ?_, ?_, ?_, ?_⟩
  · simp only [updatePolicy, hm, queryOne, hlongest]
  · exact overwriteRule_ptype line newRule _
  · intro i hi
    rw [overwriteRule_getV newRule _ line i,
      if_pos (⟨by omega, by omega⟩ : i < max oldRule.length newRule.length ∧ i < 6),
      if_pos hi]
  · intro i hge hlt
    rcases Nat.lt_or_ge i 6 with h6 | h6
    · rw [overwriteRule_getV newRule _ line i, if_pos ⟨hlt, h6⟩, if_neg (by omega)]
    · rw [overwriteRule_getV newRule _ line i,
        if_neg (by omega : ¬(i < max oldRule.length newRule.length ∧ i < 6)),
        getV_ge6 line i h6]
  · intro i hge
    rw [overwriteRule_getV newRule _ line i, if_neg (by omega)]

/-- C5 witness: shrinking a three-field rule to two fields unsets the
third field of the unique matching record. -/
theorem claim_C5_witness :
    (({ rows := [{ id := 0, ptype := "p", v0 := some "alice", v1 := some "data1", v2 := some "read" }], nextId := 1 } : DB).rows.filter (exactMatch "p" ["alice", "data1", "read"]) =
      [{ id := 0, ptype := "p", v0 := some "alice", v1 := some "data1", v2 := some "read" }]) ∧
    (["alice", "data1"] : List String).length ≤ 6 ∧
    (∃ line2,
      updatePolicy { rows := [{ id := 0, ptype := "p", v0 := some "alice", v1 := some "data1", v2 := some "read" }], nextId := 1 } "s" "p" ["alice", "data1", "read"] ["alice", "data1"] =
        Except.ok { rows := ({ rows := [{ id := 0, ptype := "p", v0 := some "alice", v1 := some "data1", v2 := some "read" }], nextId := 1 } : DB).rows.map (fun r => if r.id = ({ id := 0, ptype := "p", v0 := some "alice", v1 := some "data1", v2 := some "read" } : CasbinRule).id then line2 else r), nextId := 1 } ∧
      line2.ptype = ({ id := 0, ptype := "p", v0 := some "alice", v1 := some "data1", v2 := some "read" } : CasbinRule).ptype ∧
      (∀ i, i < (["alice", "data1"] : List String).length →
        line2.getV i = (["alice", "data1"] : List String).get? i) ∧
      (∀ i, (["alice", "data1"] : List String).length ≤ i →
        i < max (["alice", "data1", "read"] : List String).length (["alice", "data1"] : List String).length →
        line2.getV i = none) ∧
      (∀ i, max (["alice", "data1", "read"] : List String).length (["alice", "data1"] : List String).length ≤ i →
        line2.getV i = ({ id := 0, ptype := "p", v0 := some "alice", v1 := some "data1", v2 := some "read" } : CasbinRule).getV i)) :=
  ⟨by decide, by decide,
    claim_C5 { rows := [{ id := 0, ptype := "p", v0 := some "alice", v1 := some "data1", v2 := some "read" }], nextId := 1 }
      "s" "p" ["alice", "data1", "read"] ["alice", "data1"]
      { id := 0, ptype := "p", v0 := some "alice", v1 := some "data1", v2 := some "read" }
      (by decide) (by decide)⟩

/-- C6: `remove_policies` returns with storage untouched when `rules` is
empty; on a non-empty list of equal-arity rules it deletes exactly the
rows whose ptype matches and whose value at each position `i < L` lies
in the set of all the input rules' `i`-th elements — a relaxed
per-position membership match, independent across positions, so a row
combining values taken from different input rules is deleted too. -/
theorem claim_C6 (db : DB) (sec ptype : String) (rules : List (List String)) (L : Nat)
    (hne : rules ≠ []) (hlen : ∀ q ∈ rules, q.length = L) :
    removePolicies db sec ptype [] = db ∧
    (removePolicies db sec ptype rules).rows =
      db.rows.filter (fun r => !(decide (r.ptype = ptype ∧
        ∀ i < L, ∃ q ∈ rules, ∃ v, q[i]? = some v ∧ r.getV i = some v))) ∧
    (removePolicies db sec ptype rules).nextId = db.nextId := by
  have hiE : rules.isEmpty = false := by
    rcases rules with _ | ⟨q, rest⟩
    · exact absurd rfl hne
    · rfl
  refine ⟨rfl, ?_, ?_⟩
  · rw [removePolicies, hiE]
    simp only [Bool.false_eq_true, if_false]
    apply List.filter_congr
    intro r _
    have hiff := removePoliciesMatch_iff ptype rules L r hne hlen
    by_cases hP : (r.ptype = ptype ∧
        ∀ i < L, ∃ q ∈ rules, ∃ v, q[i]? = some v ∧ r.getV i = some v)
    · rw [hiff.mpr hP, decide_eq_true hP]
    · rw [decide_eq_false hP,
        (Bool.not_eq_true _).mp (fun hc => hP (hiff.mp hc))]
  · rw [removePolicies, hiE]
    simp only [Bool.false_eq_true, if_false]

/-- C6 witness: a row combining the first rule's v0 with the second
rule's v1 is deleted by the relaxed match, and the empty list is a
no-op. -/
theorem claim_C6_witness :
    (([["a", "c"], ["b", "d"]] : List (List String)) ≠ []) ∧
    (removePolicies { rows := [{ id := 0, ptype := "p", v0 := some "a", v1 := some "d" }], nextId := 1 } "s" "p" [] =
      { rows := [{ id := 0, ptype := "p", v0 := some "a", v1 := some "d" }], nextId := 1 }) ∧
    ((removePolicies { rows := [{ id := 0, ptype := "p", v0 := some "a", v1 := some "d" }], nextId := 1 } "s" "p" [["a", "c"], ["b", "d"]]).rows =
      ({ rows := [{ id := 0, ptype := "p", v0 := some "a", v1 := some "d" }], nextId := 1 } : DB).rows.filter
        (fun r => !(decide (r.ptype = "p" ∧
          ∀ i < 2, ∃ q ∈ ([["a", "c"], ["b", "d"]] : List (List String)), ∃ v, q[i]? = some v ∧ r.getV i = some v)))) ∧
    ((removePolicies { rows := [{ id := 0, ptype := "p", v0 := some "a", v1 := some "d" }], nextId := 1 } "s" "p" [["a", "c"], ["b", "d"]]).rows = []) :=
  have h := claim_C6 { rows := [{ id := 0, ptype := "p", v0 := some "a", v1 := some "d" }], nextId := 1 }
    "s" "p" [["a", "c"], ["b", "d"]] 2 (by decide) (by decide)
  ⟨by decide, h.1, h.2.1, by decide⟩

/-- C7: adding a rule of 1 to 6 fields via `add_policy` and then running
`load_policy` feeds the model one extra line string, equal to the ptype
followed by the rule's fields in order, comma-joined — identical
field-for-field to the original tuple prefixed by its ptype (the built
record has no unset gap before its end, so `__str__` stops exactly after
the rule's last field). -/
theorem claim_C7 (db : DB) (sec ptype : String) (rule : List String)
    (h1 : 1 ≤ rule.length) (h6 : rule.length ≤ 6) :
    loadPolicyLines (addPolicy db sec ptype rule) =
      loadPolicyLines db ++ [String.intercalate ", " (ptype :: rule)] := by
  rw [loadPolicyLines, addPolicy, DB.insert]
  simp only [List.map_append, List.map_cons, List.map_nil]
  rw [toStr_setId, toStr_mkLine ptype rule h6]
  rfl

/-- C7 witness: the three-field rule round-trips through storage. -/
theorem claim_C7_witness :
    1 ≤ (["alice", "data1", "read"] : List String).length ∧
    loadPolicyLines (addPolicy { rows := [], nextId := 0 } "s" "p" ["alice", "data1", "read"]) =
      loadPolicyLines { rows := [], nextId := 0 } ++
        [String.intercalate ", " ("p" :: ["alice", "data1", "read"])] :=
  ⟨by decide,
    claim_C7 { rows := [], nextId := 0 } "s" "p" ["alice", "data1", "read"]
      (by decide) (by decide)⟩

/-- C8: `remove_filtered_policy` returns False with storage untouched
whenever `field_index` is outside [0, 5] or
`field_index + len(field_values)` is outside [1, 6]; on a valid call it
deletes exactly the rows matching ptype and, at each offset, the
non-empty-string field values (empty strings are wildcards), and returns
True exactly when at least one row was deleted. -/
theorem claim_C8 (db : DB) (sec ptype : String) (fieldIndex : Int)
    (fieldValues : List String) :
    (¬((0 ≤ fieldIndex ∧ fieldIndex ≤ 5) ∧
        (1 ≤ fieldIndex + (fieldValues.length : Int) ∧
          fieldIndex + (fieldValues.length : Int) ≤ 6)) →
      removeFilteredPolicy db sec ptype fieldIndex fieldValues = (db, false)) ∧
    (((0 ≤ fieldIndex ∧ fieldIndex ≤ 5) ∧
        (1 ≤ fieldIndex + (fieldValues.length : Int) ∧
          fieldIndex + (fieldValues.length : Int) ≤ 6)) →
      (removeFilteredPolicy db sec ptype fieldIndex fieldValues).1.rows =
        db.rows.filter (fun r => !(decide (r.ptype = ptype ∧
          ∀ iv ∈ fieldValues.enum, iv.2 ≠ "" →
            r.getV (fieldIndex.toNat + iv.1) = some iv.2))) ∧
      (removeFilteredPolicy db sec ptype fieldIndex fieldValues).1.nextId = db.nextId ∧
      ((removeFilteredPolicy db sec ptype fieldIndex fieldValues).2 = true ↔
        (removeFilteredPolicy db sec ptype fieldIndex fieldValues).1.rows.length <
          db.rows.length)) := by
  constructor
  · intro h
    rw [removeFilteredPolicy]
    by_cases h1 : (0 ≤ fieldIndex ∧ fieldIndex ≤ 5)
    · rw [if_pos h1, if_neg (fun h2 => h ⟨h1, h2⟩)]
    · rw [if_neg h1]
  · rintro ⟨h1, h2⟩
    have hred : removeFilteredPolicy db sec ptype fieldIndex fieldValues =
        ({ rows := db.rows.filter
            (fun r => !(rfpMatch ptype fieldIndex.toNat fieldValues r)),
            nextId := db.nextId },
          decide (0 <
            (db.rows.filter (rfpMatch ptype fieldIndex.toNat fieldValues)).length)) := by
      rw [removeFilteredPolicy, if_pos h1, if_pos h2]
    refine ⟨?_, ?_, ?_⟩
    · rw [hred]
      apply List.filter_congr
      intro r _
      have hiff := rfpMatch_iff ptype fieldIndex.toNat fieldValues r
      by_cases hP : (r.ptype = ptype ∧
          ∀ iv ∈ fieldValues.enum, iv.2 ≠ "" →
            r.getV (fieldIndex.toNat + iv.1) = some iv.2)
      · rw [hiff.mpr hP, decide_eq_true hP]
      · rw [decide_eq_false hP,
          (Bool.not_eq_true _).mp (fun hc => hP (hiff.mp hc))]
    · rw [hred]
    · rw [hred]
      have hsum := List.length_eq_length_filter_add
        (l := db.rows) (rfpMatch ptype fieldIndex.toNat fieldValues)
      simp only [decide_eq_true_eq]
      constructor
      · intro hpos
        omega
      · intro hlt
        omega

/-- C8 witness: `field_index = 5` with two values is out of bounds —
False, storage untouched; a valid call deleting the only matching row
returns True. -/
theorem claim_C8_witness :
    (removeFilteredPolicy { rows := [{ id := 0, ptype := "p", v0 := some "a", v1 := some "d1" }], nextId := 1 } "s" "p" 5 ["x", "y"] =
      ({ rows := [{ id := 0, ptype := "p", v0 := some "a", v1 := some "d1" }], nextId := 1 }, false)) ∧
    ((removeFilteredPolicy { rows := [{ id := 0, ptype := "p", v0 := some "a", v1 := some "d1" }], nextId := 1 } "s" "p" 1 ["d1"]).1.rows =
      ({ rows := [{ id := 0, ptype := "p", v0 := some "a", v1 := some "d1" }], nextId := 1 } : DB).rows.filter
        (fun r => !(decide (r.ptype = "p" ∧
          ∀ iv ∈ (["d1"] : List String).enum, iv.2 ≠ "" →
            r.getV ((1 : Int).toNat + iv.1) = some iv.2)))) :=
  ⟨(claim_C8 { rows := [{ id := 0, ptype := "p", v0 := some "a", v1 := some "d1" }], nextId := 1 } "s" "p" 5 ["x", "y"]).1 (by decide),
    ((claim_C8 { rows := [{ id := 0, ptype := "p", v0 := some "a", v1 := some "d1" }], nextId := 1 } "s" "p" 1 ["d1"]).2 (by decide)).1⟩

/-- C9: `load_filtered_policy` with a filter whose seven value sets are
all empty reads exactly the rows `load_policy` reads (a permutation of
the whole table), delivers them ordered by id ascending, and feeds the
model the same lines up to that reordering. -/
theorem claim_C9 (db : DB) (b : Bool) (f : Filter)
    (hf : f.ptype = [] ∧ f.v0 = [] ∧ f.v1 = [] ∧ f.v2 = [] ∧ f.v3 = [] ∧ f.v4 = [] ∧
      f.v5 = []) :
    (loadFilteredRows db f).Perm db.rows ∧
    (loadFilteredRows db f).Pairwise (fun x y => x.id ≤ y.id) ∧
    ((loadFilteredPolicy (mkAdapter db b) f).2).Perm (loadPolicyLines db) := by
  have hfil : db.rows.filter (filterMatch f) = db.rows :=
    List.filter_eq_self.mpr (fun r _ => filterMatch_empty f r hf)
  have hperm : (loadFilteredRows db f).Perm db.rows := by
    rw [loadFilteredRows, filterQuery, hfil]
    exact orderById_perm db.rows
  refine ⟨hperm, ?_, ?_⟩
  · rw [loadFilteredRows, filterQuery]
    exact orderById_pairwise _
  · exact hperm.map CasbinRule.toStr

/-- C9 witness: an all-empty filter on a two-row table whose rows are
stored out of id order. -/
theorem claim_C9_witness :
    (loadFilteredRows { rows := [{ id := 1, ptype := "p", v0 := some "b" }, { id := 0, ptype := "p", v0 := some "a" }], nextId := 2 } { }).Perm
      ({ rows := [{ id := 1, ptype := "p", v0 := some "b" }, { id := 0, ptype := "p", v0 := some "a" }], nextId := 2 } : DB).rows ∧
    (loadFilteredRows { rows := [{ id := 1, ptype := "p", v0 := some "b" }, { id := 0, ptype := "p", v0 := some "a" }], nextId := 2 } { }).Pairwise
      (fun x y => x.id ≤ y.id) ∧
    ((loadFilteredPolicy (mkAdapter { rows := [{ id := 1, ptype := "p", v0 := some "b" }, { id := 0, ptype := "p", v0 := some "a" }], nextId := 2 } false) { }).2).Perm
      (loadPolicyLines { rows := [{ id := 1, ptype := "p", v0 := some "b" }, { id := 0, ptype := "p", v0 := some "a" }], nextId := 2 }) :=
  claim_C9 { rows := [{ id := 1, ptype := "p", v0 := some "b" }, { id := 0, ptype := "p", v0 := some "a" }], nextId := 2 }
    false { } ⟨rfl, rfl, rfl, rfl, rfl, rfl, rfl⟩

/-- C10: the `_filtered` flag is set to True by `load_filtered_policy`,
is never cleared by any public operation (including a subsequent
unfiltered `load_policy`), survives arbitrary sequences of operations,
and initially equals the `filtered` construction parameter — so
`is_filtered()` is False only for an adapter constructed with
`filtered=False` that has never run a filtered load. -/
theorem claim_C10 :
    (∀ (a : AdapterS) (f : Filter),
      isFiltered (applyOp a (Op.loadFilteredPolicyOp f)) = true) ∧
    (∀ (a : AdapterS) (op : Op), isFiltered a = true → isFiltered (applyOp a op) = true) ∧
    (∀ (ops : List Op) (a : AdapterS), isFiltered a = true →
      isFiltered (ops.foldl applyOp a) = true) ∧
    (∀ (db : DB) (filtered : Bool), isFiltered (mkAdapter db filtered) = filtered) := by
  have hstep : ∀ (a : AdapterS) (op : Op), isFiltered a = true →
      isFiltered (applyOp a op) = true := by
    intro a op ha
    cases op with
    | loadPolicyOp => exact ha
    | loadFilteredPolicyOp f => rfl
    | savePolicyOp m failAt =>
      simp only [applyOp]
      cases savePolicy a.db m failAt with
      | error db2 => exact ha
      | ok p =>
        cases p with
        | mk db2 flag => exact ha
    | addPolicyOp sec ptype rule => exact ha
    | addPoliciesOp sec ptype rules failAt =>
      simp only [applyOp]
      cases addPolicies a.db sec ptype rules failAt with
      | error db2 => exact ha
      | ok db2 => exact ha
    | removePolicyOp sec ptype rule => exact ha
    | removePoliciesOp sec ptype rules => exact ha
    | removeFilteredPolicyOp sec ptype fieldIndex fieldValues => exact ha
    | updatePolicyOp sec ptype oldRule newRule =>
      simp only [applyOp]
      cases updatePolicy a.db sec ptype oldRule newRule with
      | error e =>
        cases e with
        | mk msg db2 => exact ha
      | ok db2 => exact ha
    | updatePoliciesOp sec ptype oldRules newRules =>
      simp only [applyOp]
      cases updatePolicies a.db sec ptype oldRules newRules with
      | error e =>
        cases e with
        | mk msg db2 => exact ha
      | ok db2 => exact ha
  have hfold : ∀ (ops : List Op) (a : AdapterS), isFiltered a = true →
      isFiltered (ops.foldl applyOp a) = true := by
    intro ops
    induction ops with
    | nil => intro a ha; exact ha
    | cons op rest ih =>
      intro a ha
      rw [List.foldl_cons]
      exact ih (applyOp a op) (hstep a op ha)
  exact ⟨fun a f => rfl, hstep, hfold, fun db filtered => rfl⟩

/-- C10 witness: after a filtered load, a save, an unfiltered load and a
remove, the flag is still True. -/
theorem claim_C10_witness :
    isFiltered
      ([Op.savePolicyOp { p := none, g := none } none, Op.loadPolicyOp,
        Op.removePolicyOp "s" "p" ["a"]].foldl applyOp
        (applyOp (mkAdapter { rows := [], nextId := 0 } false)
          (Op.loadFilteredPolicyOp { }))) = true :=
  claim_C10.2.2.1 _ _ (claim_C10.1 (mkAdapter { rows := [], nextId := 0 } false) { })

end CasbinSql
